import Mathlib

/-!
# Verification of the conference planner core

Shallow embedding of `conference_planner.py`: the `ConferenceTalk` data model,
the ASHG abstract extractor, the exclusion classifier, the relevance-ranking
loop, the conflict detector and the schedule ordering, together with theorems
settling the specification claims about them.

Python strings are modelled as Lean `String` (lists of characters); Python
floats are modelled as exact rationals `ℚ`; Python `None` becomes `Option`.
-/

set_option maxRecDepth 4000

/-! ## Python string primitives

Character-list based models of the Python `str` operations used by the
planner (`strip`, `split`, `lower`, `in`, `startswith`, slicing). -/

/-- Model of Python's `str.strip()`: drop leading and trailing whitespace. -/
def pyStrip (s : String) : String :=
  String.mk (((s.data.dropWhile Char.isWhitespace).reverse.dropWhile Char.isWhitespace).reverse)

/-- Does the character list `hay` begin with `needle`? -/
def charsBeginWith : List Char → List Char → Bool
  | [], _ => true
  | _ :: _, [] => false
  | a :: as, b :: bs => a = b && charsBeginWith as bs

/-- Does `needle` occur as a contiguous run inside `hay`?  (Python `needle in hay`.) -/
def charsContain (needle : List Char) : List Char → Bool
  | [] => charsBeginWith needle []
  | c :: rest => charsBeginWith needle (c :: rest) || charsContain needle rest

/-- Model of Python's `needle in hay` substring test. -/
def strContains (hay needle : String) : Bool :=
  charsContain needle.data hay.data

/-- Model of Python's `hay.startswith(pat)`. -/
def strBeginsWith (hay pat : String) : Bool :=
  charsBeginWith pat.data hay.data

/-- Model of Python's `s[n:]` (drop the first `n` code points). -/
def strDropChars (s : String) (n : Nat) : String :=
  String.mk (s.data.drop n)

/-- Model of Python's `s.lower()` (for the ASCII texts handled here). -/
def pyLower (s : String) : String :=
  String.mk (s.data.map Char.toLower)

/-- Split a character list at every separator character satisfying `p`,
keeping empty fields (as Python's `str.split(sep)` does). -/
def charSplitPred (p : Char → Bool) : List Char → List (List Char)
  | [] => [[]]
  | c :: rest =>
    if p c then [] :: charSplitPred p rest
    else
      match charSplitPred p rest with
      | [] => [[c]]
      | f :: fs => (c :: f) :: fs

/-- Model of Python's `s.split(sep)` for a one-character separator. -/
def pySplitChar (sep : Char) (s : String) : List String :=
  (charSplitPred (fun c => c = sep) s.data).map String.mk

/-- Model of Python's no-argument `s.split()`: split on whitespace runs and
drop empty fields. -/
def pySplitWs (s : String) : List String :=
  ((charSplitPred Char.isWhitespace s.data).map String.mk).filter (fun f => f ≠ "")

/-- Model of Python's `' '.join(xs)`. -/
def joinSpaces : List String → String
  | [] => ""
  | [x] => x
  | x :: rest => x ++ " " ++ joinSpaces rest

/-- Model of Python's `x or default` for an optional string field:
`None` and `""` are falsy and give the default. -/
def pyOrStr : Option String → String → String
  | none, d => d
  | some s, d => if s = "" then d else s

/-- Model of Python's truthiness test on an optional string field. -/
def pyTruthy : Option String → Bool
  | none => false
  | some s => s ≠ ""

/-! ## The `ConferenceTalk` data model -/

/-- Model of `ConferenceTalk.__init__`'s stored fields. -/
structure ConferenceTalk where
  title : String
  abstract : String
  authors : List String
  session_type : String
  day : Option String
  time : Option String
  location : Option String
  session_name : Option String
  presentation_id : String
deriving DecidableEq

/-- Model of `ConferenceTalk._generate_id`:
`re.sub(r'[^a-zA-Z0-9]', '_', self.title[:50]).lower()`. -/
def generate_id (title : String) : String :=
  String.mk (((title.data.take 50).map (fun c => if c.isAlphanum then c else '_')).map Char.toLower)

/-- Model of the `ConferenceTalk` constructor: `presentation_id or self._generate_id()`. -/
def ConferenceTalk.create (title abstract : String) (authors : List String)
    (session_type : String) (day time location session_name pres_id : Option String) :
    ConferenceTalk :=
  { title := title, abstract := abstract, authors := authors, session_type := session_type,
    day := day, time := time, location := location, session_name := session_name,
    presentation_id := pyOrStr pres_id (generate_id title) }

/-! ## Per-batch ids assigned by `index_talks`

`index_talks` stores talk `idx` under the id `f"{self.conference_name.lower()}_{idx}"`.
The decimal rendering of the index is modelled by `natDecimalDigits`. -/

/-- Decimal digit characters of `n`, most significant first (the digits Python's
string formatting of a nonnegative `int` produces). -/
def natDecimalDigits (n : Nat) : List Char :=
  if _h : n < 10 then [Nat.digitChar n]
  else natDecimalDigits (n / 10) ++ [Nat.digitChar (n % 10)]
termination_by n
decreasing_by
  exact Nat.div_lt_self (by omega) (by omega)

/-- Model of `f"{self.conference_name.lower()}_{idx}"` in `index_talks`. -/
def chroma_talk_id (conference_name : String) (idx : Nat) : String :=
  pyLower conference_name ++ "_" ++ String.mk (natDecimalDigits idx)

/-- Decode a decimal digit string back to a number (stated over the raw
character codes). -/
def decodeDecimal (cs : List Char) : Nat :=
  cs.foldl (fun acc c => 10 * acc + (c.toNat - 48)) 0

theorem decodeDecimal_append (xs ys : List Char) :
    decodeDecimal (xs ++ ys) = (ys.foldl (fun acc c => 10 * acc + (c.toNat - 48)) (decodeDecimal xs)) := by
  simp [decodeDecimal, List.foldl_append]

theorem digitChar_toNat_sub (d : Nat) (h : d < 10) : (Nat.digitChar d).toNat - 48 = d := by
  interval_cases d <;> rfl

theorem decodeDecimal_natDecimalDigits (n : Nat) :
    decodeDecimal (natDecimalDigits n) = n := by
  induction n using Nat.strong_induction_on with
  | _ n ih =>
    rw [natDecimalDigits]
    by_cases h : n < 10
    · simp only [h, dif_pos]
      simp [decodeDecimal, digitChar_toNat_sub n h]
    · simp only [h, dif_neg, not_false_iff]
      rw [decodeDecimal_append]
      have hdiv : n / 10 < n := Nat.div_lt_self (by omega) (by omega)
      simp [List.foldl, ih (n / 10) hdiv, digitChar_toNat_sub (n % 10) (Nat.mod_lt n (by omega))]
      omega

theorem natDecimalDigits_inj {a b : Nat} (h : natDecimalDigits a = natDecimalDigits b) : a = b := by
  have := congrArg decodeDecimal h
  rwa [decodeDecimal_natDecimalDigits, decodeDecimal_natDecimalDigits] at this

theorem string_append_inj_right {s a b : String} (h : s ++ a = s ++ b) : a = b := by
  have hd := congrArg String.data h
  simp only [String.data_append] at hd
  exact String.ext (List.append_cancel_left hd)

/-! ## The exclusion classifier (`should_exclude_talk`) -/

/-- The computational/statistical indicator vocabulary of `should_exclude_talk`. -/
def computational_indicators : List String :=
  ["computational", "statistical", "algorithm", "machine learning", "deep learning",
   "model", "modeling", "prediction", "bioinformatics", "simulation", "software",
   "bayesian", "regression", "neural network", "random forest", "clustering",
   "dimensionality reduction", "feature selection", "cross-validation",
   "likelihood", "inference", "estimation", "pipeline", "workflow", "framework",
   "database", "tool", "method development", "novel method", "approach"]

/-- The wet-lab indicator vocabulary of `should_exclude_talk`. -/
def wetlab_indicators : List String :=
  ["pipetting", "western blot", "immunostaining", "cell culture",
   "gel electrophoresis", "cloning", "transfection", "microscopy",
   "staining", "histology", "immunohistochemistry", "pcr protocol",
   "purification", "extraction protocol", "laboratory technique"]

/-- The clinical indicator vocabulary of `should_exclude_talk`. -/
def clinical_indicators : List String :=
  ["case report", "case series", "clinical trial enrollment",
   "patient recruitment", "clinical management", "treatment protocol",
   "surgical procedure", "diagnostic criteria", "clinical presentation"]

/-- The "pure wet-lab" phrases of `should_exclude_talk`. -/
def pure_wetlab_phrases : List String :=
  ["experimental protocol", "laboratory protocol", "wet lab",
   "bench protocol", "pipetting technique"]

/-- The lower-cased `title + " " + abstract` text that `should_exclude_talk` scans. -/
def exclusion_text (talk : ConferenceTalk) : String :=
  pyLower (talk.title ++ " " ++ talk.abstract)

/-- `sum(1 for indicator in indicators if indicator in text)`. -/
def countIndicators (indicators : List String) (text : String) : Nat :=
  (indicators.filter (fun i => strContains text i)).length

/-- Model of the per-topic exclusion matching: a topic counts when at least two
of its `> 3`-character keywords occur in the text, or the whole lower-cased
topic occurs verbatim. -/
def exclusionMatchCount (exclusion_topics : List String) (text : String) : Nat :=
  (exclusion_topics.filter (fun topic =>
    let tl := pyLower topic
    let keywords := pySplitWs tl
    2 ≤ (keywords.filter (fun k => 3 < k.length && strContains text k)).length
      ∨ strContains text tl)).length

/-- Model of `ConferencePlanner.should_exclude_talk`. -/
def should_exclude_talk (exclusion_topics : List String) (talk : ConferenceTalk) : Bool :=
  if exclusion_topics = [] then false
  else
    let text := exclusion_text talk
    let comp_count := countIndicators computational_indicators text
    let wetlab_count := countIndicators wetlab_indicators text
    let clinical_count := countIndicators clinical_indicators text
    let exclusion_match_count := exclusionMatchCount exclusion_topics text
    if 2 ≤ exclusion_match_count ∧ comp_count = 0 then true
    else if 3 ≤ wetlab_count ∧ comp_count ≤ 1 then true
    else if 2 ≤ clinical_count ∧ comp_count = 0 then true
    else if pure_wetlab_phrases.any (fun p => strContains text p) ∧ comp_count = 0 then true
    else false

/-! ## Claim C2: the wet-lab exclusion threshold -/

/-- Exclusion topics that are configured (non-empty) but match nothing in the
counterexample talk's text. -/
def c2Topics : List String := ["single cell atlases", "plant phenotyping"]

/-- A talk whose text contains exactly two distinct wet-lab indicator terms
(`western blot`, `cell culture`), no computational, clinical, pure-wet-lab or
exclusion-topic matches. -/
def c2Talk : ConferenceTalk :=
  ConferenceTalk.create "Western blot analysis of synaptic proteins"
    "We performed western blot and cell culture experiments to measure synaptic protein abundance in adult mice."
    ["A Author"] "talk" none none none none none

/-- Claim C2 is false as stated: a record with 2 distinct wet-lab indicator
terms, 0 computational terms and no other matches is NOT excluded (the code
requires `wetlab_count >= 3`), even with exclusion topics configured. -/
theorem c2_counterexample :
    c2Topics ≠ [] ∧
    2 ≤ countIndicators wetlab_indicators (exclusion_text c2Talk) ∧
    countIndicators computational_indicators (exclusion_text c2Talk) ≤ 1 ∧
    countIndicators clinical_indicators (exclusion_text c2Talk) = 0 ∧
    exclusionMatchCount c2Topics (exclusion_text c2Talk) = 0 ∧
    pure_wetlab_phrases.all (fun p => !(strContains (exclusion_text c2Talk) p)) = true ∧
    should_exclude_talk c2Topics c2Talk = false := by
  decide

/-- Claim C2 amended: with exclusion topics configured, a record whose text
contains at least 3 distinct wet-lab indicator terms and at most 1
computational indicator term is excluded, and an otherwise-arbitrary record
whose computational indicator count is at least 2 is always retained. -/
theorem c2_amended (topics : List String) (talk : ConferenceTalk) (hne : topics ≠ []) :
    (3 ≤ countIndicators wetlab_indicators (exclusion_text talk) →
      countIndicators computational_indicators (exclusion_text talk) ≤ 1 →
      should_exclude_talk topics talk = true) ∧
    (2 ≤ countIndicators computational_indicators (exclusion_text talk) →
      should_exclude_talk topics talk = false) := by
  unfold should_exclude_talk
  rw [if_neg hne]
  refine ⟨fun h3 h1 => ?_, fun h2 => ?_⟩
  · by_cases hfirst : 2 ≤ exclusionMatchCount topics (exclusion_text talk) ∧
        countIndicators computational_indicators (exclusion_text talk) = 0
    · simp only [if_pos hfirst]
    · simp only [if_neg hfirst, if_pos (And.intro h3 h1)]
  · have hc0 : ¬ countIndicators computational_indicators (exclusion_text talk) = 0 := by omega
    have hc1 : ¬ countIndicators computational_indicators (exclusion_text talk) ≤ 1 := by omega
    simp only [if_neg (fun hh : _ ∧ _ => hc0 hh.2), if_neg (fun hh : _ ∧ _ => hc1 hh.2)]

/-- Witness for `c2_amended`: a wet-lab-heavy talk is excluded, and adding two
computational indicator terms to the text retains it. -/
def c2WetlabHeavyTalk : ConferenceTalk :=
  ConferenceTalk.create "Histology of cardiac tissue"
    "We performed western blot and cell culture followed by histology of the samples."
    ["A Author"] "talk" none none none none none

/-- A talk whose text contains two computational indicator terms. -/
def c2ComputationalTalk : ConferenceTalk :=
  ConferenceTalk.create "Statistical genetics of height"
    "We developed a computational and statistical analysis of common variants."
    ["A Author"] "talk" none none none none none

theorem c2_amended_witness :
    should_exclude_talk c2Topics c2WetlabHeavyTalk = true ∧
    should_exclude_talk c2Topics c2ComputationalTalk = false :=
  ⟨(c2_amended c2Topics c2WetlabHeavyTalk (by decide)).1 (by decide) (by decide),
   (c2_amended c2Topics c2ComputationalTalk (by decide)).2 (by decide)⟩

/-! ## Claim C3: record identity -/

/-- Two distinct talks sharing a title. -/
def c3TalkA : ConferenceTalk :=
  ConferenceTalk.create "Genome wide association study of height" "abstract text one"
    ["A Author"] "talk" none none none none none

/-- A different talk (different abstract and authors) with the same title. -/
def c3TalkB : ConferenceTalk :=
  ConferenceTalk.create "Genome wide association study of height" "abstract text two"
    ["B Author"] "talk" none none none none none

/-- Claim C3 is false as stated for the `ConferenceTalk` id field: the record's
own id (`presentation_id`, from `_generate_id`) is derived from the title's
first 50 characters, so two distinct records with the same title collide. -/
theorem c3_counterexample :
    c3TalkA ≠ c3TalkB ∧ c3TalkA.presentation_id = c3TalkB.presentation_id := by
  decide

/-- Claim C3 amended: the ids under which `index_talks` stores the batch in the
vector index (`f"{conference_name.lower()}_{idx}"`) are derived from the
per-batch position, and records at distinct positions always get distinct ids,
regardless of their contents. -/
theorem c3_amended (conference_name : String) (i j : Nat) (hij : i ≠ j) :
    chroma_talk_id conference_name i ≠ chroma_talk_id conference_name j := by
  intro h
  unfold chroma_talk_id at h
  have h2 := string_append_inj_right (s := pyLower conference_name ++ "_") h
  have h3 := congrArg String.data h2
  exact hij (natDecimalDigits_inj h3)

/-- Witness for `c3_amended` at a concrete batch. -/
theorem c3_amended_witness :
    chroma_talk_id "ASHG2025" 0 ≠ chroma_talk_id "ASHG2025" 1 :=
  c3_amended "ASHG2025" 0 1 (by decide)

/-! ## The ASHG abstract extractor (`_parse_single_ashg_abstract_v2`)

The two `re.search` calls that opportunistically pull `day`/`time` out of a
`Subsession Time:`/`Session:` line are treated as an external collaborator and
passed in as oracles (`reDayTime` for the
`(\w+, \w+ \d+) at ([\d:apm –-]+)` pattern and `reDayAlt` for the
`(?:Session|Subsession Time):\s*(.+?)(?:$|at)` fallback); no claim depends on
their output. -/

/-- State accumulated by the field scan of `_parse_single_ashg_abstract_v2`. -/
structure AshgScanState where
  day : Option String
  time : Option String
  location : Option String
  authors_line : Option String
  abstract_text : Option String
deriving DecidableEq

/-- The all-`None` initial state. -/
def initScanState : AshgScanState :=
  { day := none, time := none, location := none, authors_line := none, abstract_text := none }

/-- The continuation lines collected after an `Authors:` label: stop at a blank
line or at the next field label. -/
def collectAuthorContinuations : List String → List String
  | [] => []
  | l :: rest =>
    let nl := pyStrip l
    if nl = "" || strBeginsWith nl "Abstract:" || strBeginsWith nl "Location:"
        || strBeginsWith nl "Subsession" then []
    else if !(strBeginsWith nl "Authors:" || strBeginsWith nl "Abstract:"
        || strBeginsWith nl "Location:") then
      nl :: collectAuthorContinuations rest
    else []

/-- The lines collected after an `Abstract:` label: every remaining non-blank
line that does not start with `Subsection Time:` (sic) or `Authors:`. -/
def collectAbstractLines (rest : List String) : List String :=
  rest.filterMap (fun l =>
    let nl := pyStrip l
    if nl ≠ "" ∧ ¬ strBeginsWith nl "Subsection Time:" = true ∧ ¬ strBeginsWith nl "Authors:" = true
    then some nl else none)

/-- The main field scan: one pass over the section's lines, extracting
day/time, location, the joined authors line, and the joined abstract text
(which ends the scan, as the Python loop `break`s there). -/
def ashgFieldScan (reDayTime : String → Option (String × String))
    (reDayAlt : String → Option String) :
    List String → AshgScanState → AshgScanState
  | [], st => st
  | l :: rest, st =>
    let line := pyStrip l
    if strContains line "Subsession Time:" || strContains line "Session:" then
      match reDayTime line with
      | some (d, t) => ashgFieldScan reDayTime reDayAlt rest { st with day := some d, time := some t }
      | none =>
        match reDayAlt line with
        | some d => ashgFieldScan reDayTime reDayAlt rest { st with day := some d }
        | none => ashgFieldScan reDayTime reDayAlt rest st
    else if strBeginsWith line "Location:" then
      ashgFieldScan reDayTime reDayAlt rest { st with location := some (pyStrip (strDropChars line 9)) }
    else if strBeginsWith line "Authors:" then
      let al := joinSpaces (pyStrip (strDropChars line 8) :: collectAuthorContinuations rest)
      ashgFieldScan reDayTime reDayAlt rest { st with authors_line := some al }
    else if strBeginsWith line "Abstract:" then
      let ab := joinSpaces (pyStrip (strDropChars line 9) :: collectAbstractLines rest)
      { st with abstract_text := some ab }
    else
      ashgFieldScan reDayTime reDayAlt rest st

/-- Session-type classification from the whole section text. -/
def detectSessionType (sectionText : String) : String :=
  let s := pyLower sectionText
  if ["poster", "poster session", "poster presentation", "pgmnr"].any
      (fun k => strContains s k) then "poster"
  else if ["platform", "oral", "invited", "plenary", "subsession time"].any
      (fun k => strContains s k) then "talk"
  else "poster"

/-- The paren-depth-aware comma split of the authors line. -/
def splitAuthorSegments : List Char → List Char → Int → List String
  | [], cur, _ => if pyStrip (String.mk cur) = "" then [] else [pyStrip (String.mk cur)]
  | c :: rest, cur, depth =>
    if c = '(' then splitAuthorSegments rest (cur ++ [c]) (depth + 1)
    else if c = ')' then splitAuthorSegments rest (cur ++ [c]) (depth - 1)
    else if c = ',' ∧ depth = 0 then pyStrip (String.mk cur) :: splitAuthorSegments rest [] depth
    else splitAuthorSegments rest (cur ++ [c]) depth

/-- Parse the joined authors line into names: comma-split outside parens, take
the part before any paren, keep names longer than 2 characters. -/
def parse_authors_line (authors_line : String) : List String :=
  (splitAuthorSegments authors_line.data [] 0).filterMap (fun part =>
    let name := pyStrip (String.mk ((pyStrip part).data.takeWhile (fun c => c ≠ '(')))
    if 2 < name.length then some name else none)

/-- The scan state computed for a section (shared by the parser and by the
boundary-condition claims). -/
def ashg_scan_result (reDayTime : String → Option (String × String))
    (reDayAlt : String → Option String) (sectionText : String) : AshgScanState :=
  ashgFieldScan reDayTime reDayAlt (pySplitChar '\n' (pyStrip sectionText)) initScanState

/-- Model of `ConferencePlanner._parse_single_ashg_abstract_v2`. -/
def parse_single_ashg_abstract_v2 (reDayTime : String → Option (String × String))
    (reDayAlt : String → Option String) (sectionText : String) : Option ConferenceTalk :=
  let lines := pySplitChar '\n' (pyStrip sectionText)
  if lines.length < 3 then none
  else
    let title := pyStrip (lines.headD "")
    let session_type := detectSessionType sectionText
    let st := ashg_scan_result reDayTime reDayAlt sectionText
    let authors := match st.authors_line with
      | some al => parse_authors_line al
      | none => []
    match st.abstract_text with
    | some a =>
      if title ≠ "" ∧ 50 < a.length then
        some (ConferenceTalk.create title a authors session_type
          st.day st.time st.location none none)
      else none
    | none => none

/-! ## Claim C1: emitted records are valid -/

/-- Claim C1: every `ConferenceTalk` emitted by the extractor has a non-empty
title and an abstract of length at least 50; a section missing either
component yields `none`, never a partial record. -/
theorem c1_extractor_valid_records (reDayTime : String → Option (String × String))
    (reDayAlt : String → Option String) (sectionText : String) (t : ConferenceTalk)
    (h : parse_single_ashg_abstract_v2 reDayTime reDayAlt sectionText = some t) :
    t.title ≠ "" ∧ 50 ≤ t.abstract.length := by
  unfold parse_single_ashg_abstract_v2 at h
  simp only [] at h
  split at h
  · exact absurd h (by simp)
  · split at h
    · split at h
      · rename_i hcond
        cases h
        exact ⟨hcond.1, le_of_lt hcond.2⟩
      · exact absurd h (by simp)
    · exact absurd h (by simp)

/-- A well-formed concrete section for the C1 witness. -/
def c1Section : String :=
  "A Novel Statistical Method For Fine Mapping\nAuthors: Jane Doe (MIT), John Smith (Stanford University)\nAbstract: We present a comprehensive evaluation of our new approach across twelve cohorts."

/-- The record the extractor produces from `c1Section`. -/
def c1ExpectedTalk : ConferenceTalk :=
  { title := "A Novel Statistical Method For Fine Mapping",
    abstract := "We present a comprehensive evaluation of our new approach across twelve cohorts.",
    authors := ["Jane Doe", "John Smith"],
    session_type := "poster",
    day := none, time := none, location := none, session_name := none,
    presentation_id := "a_novel_statistical_method_for_fine_mapping" }

theorem c1_extractor_valid_records_witness :
    c1ExpectedTalk.title ≠ "" ∧ 50 ≤ c1ExpectedTalk.abstract.length :=
  c1_extractor_valid_records (fun _ => none) (fun _ => none) c1Section c1ExpectedTalk (by decide)

/-! ## Claim C10: the 50-character boundary is strict -/

/-- Claim C10: a section whose extracted abstract text has length exactly 50
yields no record, and a record is emitted only when the abstract length is
strictly greater than 50. -/
theorem c10_strict_threshold (reDayTime : String → Option (String × String))
    (reDayAlt : String → Option String) (sectionText : String) :
    (∀ a, (ashg_scan_result reDayTime reDayAlt sectionText).abstract_text = some a →
      a.length = 50 → parse_single_ashg_abstract_v2 reDayTime reDayAlt sectionText = none) ∧
    (∀ t, parse_single_ashg_abstract_v2 reDayTime reDayAlt sectionText = some t →
      50 < t.abstract.length) := by
  constructor
  · intro a ha h50
    unfold parse_single_ashg_abstract_v2
    simp only []
    split
    · rfl
    · rw [ha]
      simp only []
      rw [if_neg]
      rintro ⟨-, hlt⟩
      omega
  · intro t h
    unfold parse_single_ashg_abstract_v2 at h
    simp only [] at h
    split at h
    · exact absurd h (by simp)
    · split at h
      · split at h
        · rename_i hcond
          cases h
          exact hcond.2
        · exact absurd h (by simp)
      · exact absurd h (by simp)

/-- A 50-character abstract body. -/
def c10Abstract : String := "abcdefghijabcdefghijabcdefghijabcdefghijabcdefghij"

/-- A section whose abstract text has length exactly 50. -/
def c10Section : String :=
  "Some Valid Title Line Here\nAuthors: Jane Doe\nAbstract: " ++ c10Abstract

theorem c10_strict_threshold_witness :
    parse_single_ashg_abstract_v2 (fun _ => none) (fun _ => none) c10Section = none :=
  (c10_strict_threshold (fun _ => none) (fun _ => none) c10Section).1 c10Abstract
    (by decide) (by decide)

/-! ## The relevance ranker (`find_relevant_talks`)

The embedding model and the ChromaDB collection are external collaborators:
the collection is modelled as an optional query oracle mapping the requested
`n_results` to the returned `(metadata, distance)` list. -/

/-- A metadata record as round-tripped through the vector store: every
optional field was coerced to a string (`None` removed, missing keys set to
`''`) and the author list serialized as a comma-joined string. -/
structure TalkMetadata where
  title : String
  abstract : String
  authors : String
  session_type : String
  day : String
  time : String
  location : String
  session_name : String
  presentation_id : String
deriving DecidableEq

/-- Model of rebuilding a `ConferenceTalk` from stored metadata:
`[a.strip() for a in authors.split(',') if a.strip()]` and then
`ConferenceTalk(**metadata_copy)`. -/
def talkOfMetadata (m : TalkMetadata) : ConferenceTalk :=
  ConferenceTalk.create m.title m.abstract
    (((pySplitChar ',' m.authors).map pyStrip).filter (fun a => a ≠ ""))
    m.session_type (some m.day) (some m.time) (some m.location) (some m.session_name)
    (some m.presentation_id)

/-- Model of `similarity = 1 / (1 + distance)`. -/
def similarity_of_distance (d : ℚ) : ℚ := 1 / (1 + d)

/-- Is the character a period or a comma (the set stripped by `strip('.,')`)? -/
def isDotOrComma (c : Char) : Bool := c = '.' || c = ','

/-- Model of Python's `t.strip('.,')`. -/
def stripDotsCommas (s : String) : String :=
  String.mk (((s.data.dropWhile isDotOrComma).reverse.dropWhile isDotOrComma).reverse)

/-- The tokens of an author name used for matching:
`[t.lower().strip('.,') for t in name.split() if len(t.strip('.,')) > 1]`. -/
def author_match_tokens (name : String) : List String :=
  (pySplitWs name).filterMap (fun t =>
    if 1 < (stripDotsCommas t).length then some (stripDotsCommas (pyLower t)) else none)

/-- A talk author matches an author-of-interest entry when every token of the
interest name appears among the talk author's tokens. -/
def author_matches (interest talkAuthor : String) : Bool :=
  (author_match_tokens interest).all (fun tok => (author_match_tokens talkAuthor).contains tok)

/-- The matching talk-author names collected by the boost loop (first matching
talk author per interest entry, in order). -/
def matching_authors (authors_of_interest talkAuthors : List String) : List String :=
  authors_of_interest.filterMap (fun e => talkAuthors.find? (fun ta => author_matches e ta))

/-- The author-affinity boost: `0.15` on any match, `0` otherwise. -/
def author_boost (authors_of_interest talkAuthors : List String) : ℚ :=
  if matching_authors authors_of_interest talkAuthors = [] then 0 else 15 / 100

/-- `boosted_similarity = min(1.0, similarity + author_boost)`. -/
def boosted_similarity (authors_of_interest talkAuthors : List String) (sim : ℚ) : ℚ :=
  min 1 (sim + author_boost authors_of_interest talkAuthors)

/-- The result-processing loop of `find_relevant_talks`: keep a fetched record
when its pre-boost similarity reaches the threshold and the exclusion
classifier retains it; stop once `top_k` candidates are collected.  The
`count` argument is the number of candidates already collected. -/
def processResults (exclusion_topics authors_of_interest : List String)
    (min_relevance_score : ℚ) (top_k : Nat) :
    List (TalkMetadata × ℚ) → Nat → List (ConferenceTalk × ℚ)
  | [], _ => []
  | (m, dist) :: rest, count =>
    let sim := similarity_of_distance dist
    if min_relevance_score ≤ sim then
      let talk := talkOfMetadata m
      let boosted := boosted_similarity authors_of_interest talk.authors sim
      if should_exclude_talk exclusion_topics talk = false then
        if top_k ≤ count + 1 then [(talk, boosted)]
        else (talk, boosted) ::
          processResults exclusion_topics authors_of_interest min_relevance_score top_k rest (count + 1)
      else processResults exclusion_topics authors_of_interest min_relevance_score top_k rest count
    else processResults exclusion_topics authors_of_interest min_relevance_score top_k rest count

/-- The planner configuration consumed by `find_relevant_talks`. -/
structure PlannerConfig where
  talks : List ConferenceTalk
  research_interests : List String
  exclusion_topics : List String
  authors_of_interest : List String

/-- Model of `fetch_count = min(top_k * 3, len(self.talks)) if
self.exclusion_topics else min(top_k, len(self.talks))`. -/
def fetch_count (cfg : PlannerConfig) (top_k : Nat) : Nat :=
  if cfg.exclusion_topics ≠ [] then min (top_k * 3) cfg.talks.length
  else min top_k cfg.talks.length

/-- Model of `ConferencePlanner.find_relevant_talks`.  `collection` is `none`
when `index_talks` has not initialized the vector store; otherwise it is the
backend's query oracle. -/
def find_relevant_talks (cfg : PlannerConfig)
    (collection : Option (Nat → List (TalkMetadata × ℚ)))
    (top_k : Nat) (min_relevance_score : ℚ) :
    Except String (List (ConferenceTalk × ℚ)) :=
  match collection with
  | none => .error "Collection not initialized. Call index_talks() first."
  | some query =>
    if cfg.research_interests = [] then .error "No research interests defined."
    else
      .ok (processResults cfg.exclusion_topics cfg.authors_of_interest
        min_relevance_score top_k (query (fetch_count cfg top_k)) 0)

/-! ## Properties of the ranking loop -/

/-- Every candidate produced by the processing loop comes from a fetched
record whose pre-boost similarity reached the threshold, and carries the
boosted similarity of that record. -/
theorem processResults_mem (excl aoi : List String) (ms : ℚ) (tk : Nat) :
    ∀ (results : List (TalkMetadata × ℚ)) (count : Nat) (p : ConferenceTalk × ℚ),
      p ∈ processResults excl aoi ms tk results count →
      ∃ md ∈ results, p.1 = talkOfMetadata md.1 ∧
        ms ≤ similarity_of_distance md.2 ∧
        p.2 = boosted_similarity aoi (talkOfMetadata md.1).authors (similarity_of_distance md.2) := by
  intro results
  induction results with
  | nil =>
    intro count p hp
    simp [processResults] at hp
  | cons hd tl ih =>
    intro count p hp
    obtain ⟨m, dist⟩ := hd
    rw [processResults] at hp
    simp only [] at hp
    split at hp
    · rename_i hsim
      split at hp
      · split at hp
        · rw [List.mem_singleton] at hp
          subst hp
          exact ⟨(m, dist), List.mem_cons_self _ _, rfl, hsim, rfl⟩
        · rw [List.mem_cons] at hp
          rcases hp with hp | hp
          · subst hp
            exact ⟨(m, dist), List.mem_cons_self _ _, rfl, hsim, rfl⟩
          · obtain ⟨md, hmd, h1, h2, h3⟩ := ih (count + 1) p hp
            exact ⟨md, List.mem_cons_of_mem _ hmd, h1, h2, h3⟩
      · obtain ⟨md, hmd, h1, h2, h3⟩ := ih count p hp
        exact ⟨md, List.mem_cons_of_mem _ hmd, h1, h2, h3⟩
    · obtain ⟨md, hmd, h1, h2, h3⟩ := ih count p hp
      exact ⟨md, List.mem_cons_of_mem _ hmd, h1, h2, h3⟩

/-- The boost loop finds no matching author exactly when no interest entry
matches any talk author. -/
theorem matching_authors_eq_nil_iff (aoi tas : List String) :
    matching_authors aoi tas = [] ↔ ∀ e ∈ aoi, ∀ ta ∈ tas, author_matches e ta = false := by
  unfold matching_authors
  rw [List.filterMap_eq_nil_iff]
  simp [List.find?_eq_none]

/-- For a nonnegative distance, `1 / (1 + d)` is positive and at most one. -/
theorem similarity_of_distance_mem_Ioc (d : ℚ) (hd : 0 ≤ d) :
    0 < similarity_of_distance d ∧ similarity_of_distance d ≤ 1 := by
  unfold similarity_of_distance
  have h1 : (0 : ℚ) < 1 + d := by linarith
  constructor
  · exact one_div_pos.mpr h1
  · rw [div_le_one h1]
    linarith

/-- `1 / (1 + d)` is antitone on nonnegative distances. -/
theorem similarity_of_distance_anti (d₁ d₂ : ℚ) (h0 : 0 ≤ d₁) (h12 : d₁ ≤ d₂) :
    similarity_of_distance d₂ ≤ similarity_of_distance d₁ := by
  unfold similarity_of_distance
  have h1 : (0 : ℚ) < 1 + d₁ := by linarith
  exact one_div_le_one_div_of_le h1 (by linarith)

/-! ## Claim C4: the author-affinity boost -/

/-- Claim C4: every retained candidate with a token-superset author match gets
the score `min(1.0, base_similarity + 0.15)`, and a retained candidate with no
such match keeps its base similarity unchanged. -/
theorem c4_author_boost (excl aoi : List String) (ms : ℚ) (tk : Nat)
    (results : List (TalkMetadata × ℚ)) (count : Nat)
    (hnn : ∀ md ∈ results, 0 ≤ md.2) :
    ∀ p ∈ processResults excl aoi ms tk results count,
      ∃ md ∈ results, p.1 = talkOfMetadata md.1 ∧
        ((∃ e ∈ aoi, ∃ ta ∈ p.1.authors, author_matches e ta = true) →
          p.2 = min 1 (similarity_of_distance md.2 + 15 / 100)) ∧
        ((∀ e ∈ aoi, ∀ ta ∈ p.1.authors, author_matches e ta = false) →
          p.2 = similarity_of_distance md.2) := by
  intro p hp
  obtain ⟨md, hmd, hpt, _hms, hpb⟩ := processResults_mem excl aoi ms tk results count p hp
  refine ⟨md, hmd, hpt, ?_, ?_⟩
  · rintro ⟨e, he, ta, hta, hm⟩
    rw [hpb, boosted_similarity, author_boost, if_neg]
    intro hnil
    rw [matching_authors_eq_nil_iff] at hnil
    have := hnil e he ta (by rw [← hpt]; exact hta)
    rw [hm] at this
    exact Bool.noConfusion this
  · intro hall
    rw [hpb, boosted_similarity, author_boost, if_pos]
    · rw [add_zero]
      exact min_eq_right (similarity_of_distance_mem_Ioc md.2 (hnn md hmd)).2
    · rw [matching_authors_eq_nil_iff]
      intro e he ta hta
      exact hall e he ta (by rw [hpt]; exact hta)

/-- Metadata for the C4 witness: the second listed author token-matches the
interest entry `"Jane Doe"` despite the extra middle initial. -/
def c4Metadata : TalkMetadata :=
  { title := "Fine mapping of regulatory variants",
    abstract := "A statistical model for fine mapping across cohorts.",
    authors := "Jane M. Doe, Bob Roe", session_type := "talk", day := "", time := "",
    location := "", session_name := "", presentation_id := "x1" }

theorem c4_author_boost_witness :
    author_matches "Jane Doe" "Jane M. Doe" = true ∧
    (∀ p ∈ processResults [] ["Jane Doe"] (1 / 10) 5 [(c4Metadata, 1)] 0,
      ∃ md ∈ [(c4Metadata, (1 : ℚ))], p.1 = talkOfMetadata md.1 ∧
        ((∃ e ∈ ["Jane Doe"], ∃ ta ∈ p.1.authors, author_matches e ta = true) →
          p.2 = min 1 (similarity_of_distance md.2 + 15 / 100)) ∧
        ((∀ e ∈ ["Jane Doe"], ∀ ta ∈ p.1.authors, author_matches e ta = false) →
          p.2 = similarity_of_distance md.2)) :=
  ⟨by decide, c4_author_boost [] ["Jane Doe"] (1 / 10) 5 [(c4Metadata, 1)] 0 (by decide)⟩

/-! ## Claim C5: similarity conversion and the retention threshold -/

/-- Claim C5: the distance-to-similarity conversion is antitone, lands in
`(0, 1]` for nonnegative distances, and every candidate retained by the
ranking loop comes from a fetched record whose pre-boost similarity is at
least the caller's threshold. -/
theorem c5_similarity_monotone (d₁ d₂ : ℚ) (h0 : 0 ≤ d₁) (h12 : d₁ ≤ d₂)
    (excl aoi : List String) (ms : ℚ) (tk : Nat)
    (results : List (TalkMetadata × ℚ)) (count : Nat) :
    similarity_of_distance d₂ ≤ similarity_of_distance d₁ ∧
    (0 < similarity_of_distance d₁ ∧ similarity_of_distance d₁ ≤ 1) ∧
    (∀ p ∈ processResults excl aoi ms tk results count,
      ∃ md ∈ results, p.1 = talkOfMetadata md.1 ∧ ms ≤ similarity_of_distance md.2) := by
  refine ⟨similarity_of_distance_anti d₁ d₂ h0 h12, similarity_of_distance_mem_Ioc d₁ h0, ?_⟩
  intro p hp
  obtain ⟨md, hmd, h1, h2, _⟩ := processResults_mem excl aoi ms tk results count p hp
  exact ⟨md, hmd, h1, h2⟩

theorem c5_similarity_monotone_witness :
    similarity_of_distance 3 ≤ similarity_of_distance (1 / 2) ∧
    (0 < similarity_of_distance (1 / 2) ∧ similarity_of_distance (1 / 2) ≤ 1) ∧
    (∀ p ∈ processResults [] [] (3 / 10) 5 ([] : List (TalkMetadata × ℚ)) 0,
      ∃ md ∈ ([] : List (TalkMetadata × ℚ)), p.1 = talkOfMetadata md.1 ∧
        (3 / 10 : ℚ) ≤ similarity_of_distance md.2) :=
  c5_similarity_monotone (1 / 2) 3 (by norm_num) (by norm_num) [] [] (3 / 10) 5 [] 0

/-! ## Claim C8: the fetch count -/

/-- Claim C8: with a populated collection and interests configured, the number
of records requested from the vector backend is `min(top_k * 3, total)` when
exclusion topics are configured and `min(top_k, total)` otherwise. -/
theorem c8_fetch_count (cfg : PlannerConfig) (query : Nat → List (TalkMetadata × ℚ))
    (top_k : Nat) (ms : ℚ) (hri : cfg.research_interests ≠ []) :
    fetch_count cfg top_k =
      (if cfg.exclusion_topics ≠ [] then min (top_k * 3) cfg.talks.length
       else min top_k cfg.talks.length) ∧
    find_relevant_talks cfg (some query) top_k ms =
      .ok (processResults cfg.exclusion_topics cfg.authors_of_interest ms top_k
        (query (fetch_count cfg top_k)) 0) := by
  refine ⟨rfl, ?_⟩
  unfold find_relevant_talks
  simp only []
  rw [if_neg hri]

/-- A concrete configuration with interests and exclusion topics set. -/
def c8Config : PlannerConfig :=
  { talks := [c2Talk, c3TalkA, c3TalkB, c1ExpectedTalk],
    research_interests := ["statistical genetics"],
    exclusion_topics := c2Topics,
    authors_of_interest := ["Jane Doe"] }

theorem c8_fetch_count_witness :
    fetch_count c8Config 50 =
      (if c8Config.exclusion_topics ≠ [] then min (50 * 3) c8Config.talks.length
       else min 50 c8Config.talks.length) ∧
    find_relevant_talks c8Config (some (fun _ => [])) 50 (3 / 10) =
      .ok (processResults c8Config.exclusion_topics c8Config.authors_of_interest (3 / 10) 50
        ((fun _ => ([] : List (TalkMetadata × ℚ))) (fetch_count c8Config 50)) 0) :=
  c8_fetch_count c8Config (fun _ => []) 50 (3 / 10) (by decide)

/-! ## Claim C9: configuration errors -/

/-- Claim C9: invoking the ranker with an uninitialized collection or with no
research interests yields a configuration error, never a candidate list. -/
theorem c9_configuration_errors (cfg : PlannerConfig)
    (collection : Option (Nat → List (TalkMetadata × ℚ))) (top_k : Nat) (ms : ℚ)
    (h : collection = none ∨ cfg.research_interests = []) :
    ∃ msg, find_relevant_talks cfg collection top_k ms = .error msg := by
  rcases h with h | h
  · subst h
    exact ⟨_, rfl⟩
  · cases collection with
    | none => exact ⟨_, rfl⟩
    | some query =>
      refine ⟨"No research interests defined.", ?_⟩
      unfold find_relevant_talks
      simp only []
      rw [if_pos h]

/-- A configuration with no research interests. -/
def c9Config : PlannerConfig :=
  { talks := [], research_interests := [], exclusion_topics := [], authors_of_interest := [] }

theorem c9_configuration_errors_witness :
    ∃ msg, find_relevant_talks c9Config none 50 (3 / 10) = .error msg :=
  c9_configuration_errors c9Config none 50 (3 / 10) (Or.inl rfl)

/-! ## The conflict detector (`detect_conflicts`) -/

/-- The `f"{day}_{time}"` grouping key, defined only when both fields are
truthy (Python `if talk.day and talk.time`). -/
def slotKey (t : ConferenceTalk) : Option String :=
  match t.day, t.time with
  | some d, some tm => if d ≠ "" ∧ tm ≠ "" then some (d ++ "_" ++ tm) else none
  | _, _ => none

/-- Append an entry to the group with the given key, preserving insertion
order of keys (as a Python dict does). -/
def addToSlot (key : String) (entry : ConferenceTalk × ℚ) :
    List (String × List (ConferenceTalk × ℚ)) → List (String × List (ConferenceTalk × ℚ))
  | [] => [(key, [entry])]
  | (k, es) :: rest =>
    if k = key then (k, es ++ [entry]) :: rest else (k, es) :: addToSlot key entry rest

/-- One step of the grouping loop of `detect_conflicts`. -/
def slotStep (slots : List (String × List (ConferenceTalk × ℚ)))
    (p : ConferenceTalk × ℚ) : List (String × List (ConferenceTalk × ℚ)) :=
  match slotKey p.1 with
  | some k => addToSlot k p slots
  | none => slots

/-- The `time_slots` grouping built by `detect_conflicts`. -/
def buildTimeSlots (talks : List (ConferenceTalk × ℚ)) :
    List (String × List (ConferenceTalk × ℚ)) :=
  talks.foldl slotStep []

/-- Model of `ConferencePlanner.detect_conflicts`: the groups with more than
one member. -/
def detect_conflicts (talks : List (ConferenceTalk × ℚ)) :
    List (String × List (ConferenceTalk × ℚ)) :=
  (buildTimeSlots talks).filter (fun g => 1 < g.2.length)

/-- A candidate with a slot key has truthy day and time. -/
theorem slotKey_truthy {t : ConferenceTalk} {k : String} (h : slotKey t = some k) :
    pyTruthy t.day = true ∧ pyTruthy t.time = true := by
  unfold slotKey at h
  split at h
  · rename_i d tm hd htm
    split at h
    · rename_i hc
      rw [hd, htm]
      simp [pyTruthy, hc.1, hc.2]
    · exact absurd h (by simp)
  · exact absurd h (by simp)

/-- Every member of a group after `addToSlot` was already in some group, or is
the inserted entry. -/
theorem addToSlot_mem {key : String} {entry : ConferenceTalk × ℚ} :
    ∀ (slots : List (String × List (ConferenceTalk × ℚ))) (g : String × List (ConferenceTalk × ℚ)),
      g ∈ addToSlot key entry slots → ∀ p ∈ g.2, (∃ g' ∈ slots, p ∈ g'.2) ∨ p = entry := by
  intro slots
  induction slots with
  | nil =>
    intro g hg p hp
    simp only [addToSlot, List.mem_singleton] at hg
    subst hg
    simp only [List.mem_singleton] at hp
    exact Or.inr hp
  | cons hd tl ih =>
    intro g hg p hp
    obtain ⟨k, es⟩ := hd
    rw [addToSlot] at hg
    split at hg
    · rw [List.mem_cons] at hg
      rcases hg with hg | hg
      · subst hg
        rw [List.mem_append] at hp
        rcases hp with hp | hp
        · exact Or.inl ⟨(k, es), List.mem_cons_self _ _, hp⟩
        · exact Or.inr (List.mem_singleton.mp hp)
      · exact Or.inl ⟨g, List.mem_cons_of_mem _ hg, hp⟩
    · rw [List.mem_cons] at hg
      rcases hg with hg | hg
      · subst hg
        exact Or.inl ⟨(k, es), List.mem_cons_self _ _, hp⟩
      · rcases ih g hg p hp with ⟨g', hg', hp'⟩ | hp'
        · exact Or.inl ⟨g', List.mem_cons_of_mem _ hg', hp'⟩
        · exact Or.inr hp'

/-- Grouping invariant: every member of every built group has truthy day and
time fields. -/
theorem buildTimeSlots_truthy :
    ∀ (talks : List (ConferenceTalk × ℚ)) (slots : List (String × List (ConferenceTalk × ℚ))),
      (∀ g ∈ slots, ∀ p ∈ g.2, pyTruthy p.1.day = true ∧ pyTruthy p.1.time = true) →
      ∀ g ∈ talks.foldl slotStep slots, ∀ p ∈ g.2,
        pyTruthy p.1.day = true ∧ pyTruthy p.1.time = true := by
  intro talks
  induction talks with
  | nil => intro slots hinv g hg p hp; exact hinv g hg p hp
  | cons t ts ih =>
    intro slots hinv
    rw [List.foldl_cons]
    apply ih
    intro g hg p hp
    unfold slotStep at hg
    split at hg
    · rename_i k hk
      rcases addToSlot_mem slots g hg p hp with ⟨g', hg', hp'⟩ | hp'
      · exact hinv g' hg' p hp'
      · subst hp'
        exact slotKey_truthy hk
    · exact hinv g hg p hp

/-! ## Claim C6: conflict detection -/

/-- Claim C6: `detect_conflicts` returns only groups with more than one
member, groups contain only candidates with day and time present, and on two
candidates sharing `(day, time)` plus one with a different time it returns
exactly one group of size 2. -/
theorem c6_detect_conflicts (talks : List (ConferenceTalk × ℚ))
    (a b c : ConferenceTalk) (sa sb sc : ℚ) (d tm tm' : String)
    (had : a.day = some d) (hat : a.time = some tm)
    (hbd : b.day = some d) (hbt : b.time = some tm)
    (hcd : c.day = some d) (hct : c.time = some tm')
    (hd : d ≠ "") (htm : tm ≠ "") (htm' : tm' ≠ "") (hne : tm ≠ tm') :
    (∀ g ∈ detect_conflicts talks, 1 < g.2.length ∧
      ∀ p ∈ g.2, pyTruthy p.1.day = true ∧ pyTruthy p.1.time = true) ∧
    detect_conflicts [(a, sa), (b, sb), (c, sc)] = [(d ++ "_" ++ tm, [(a, sa), (b, sb)])] := by
  constructor
  · intro g hg
    rw [detect_conflicts, List.mem_filter] at hg
    refine ⟨by simpa using hg.2, ?_⟩
    intro p hp
    exact buildTimeSlots_truthy talks [] (by simp) g hg.1 p hp
  · have hka : slotKey a = some (d ++ "_" ++ tm) := by
      unfold slotKey
      rw [had, hat]
      simp [hd, htm]
    have hkb : slotKey b = some (d ++ "_" ++ tm) := by
      unfold slotKey
      rw [hbd, hbt]
      simp [hd, htm]
    have hkc : slotKey c = some (d ++ "_" ++ tm') := by
      unfold slotKey
      rw [hcd, hct]
      simp [hd, htm']
    have hkey : ¬ (d ++ "_" ++ tm = d ++ "_" ++ tm') := fun hh =>
      hne (string_append_inj_right (s := d ++ "_") hh)
    rw [detect_conflicts, buildTimeSlots]
    simp only [List.foldl_cons, List.foldl_nil]
    simp only [slotStep, hka, hkb, hkc]
    simp [addToSlot, hkey, List.filter]

/-- Concrete candidates for the C6 witness. -/
def c6TalkA : ConferenceTalk :=
  ConferenceTalk.create "Fine mapping pipelines" "A computational study of pipelines for fine mapping."
    ["A Author"] "talk" (some "Friday, October 17") (some "2:00 pm") none none none

/-- Second candidate in the same slot. -/
def c6TalkB : ConferenceTalk :=
  ConferenceTalk.create "Rare variant burden tests" "A statistical study of burden tests in biobanks."
    ["B Author"] "talk" (some "Friday, October 17") (some "2:00 pm") none none none

/-- Third candidate at a different time. -/
def c6TalkC : ConferenceTalk :=
  ConferenceTalk.create "Polygenic score transfer" "A study of polygenic score portability across groups."
    ["C Author"] "poster" (some "Friday, October 17") (some "4:00 pm") none none none

theorem c6_detect_conflicts_witness :
    (∀ g ∈ detect_conflicts [(c6TalkA, (9 : ℚ) / 10), (c6TalkB, 8 / 10), (c6TalkC, 7 / 10)],
      1 < g.2.length ∧ ∀ p ∈ g.2, pyTruthy p.1.day = true ∧ pyTruthy p.1.time = true) ∧
    detect_conflicts [(c6TalkA, (9 : ℚ) / 10), (c6TalkB, 8 / 10), (c6TalkC, 7 / 10)] =
      [("Friday, October 17" ++ "_" ++ "2:00 pm", [(c6TalkA, (9 : ℚ) / 10), (c6TalkB, 8 / 10)])] :=
  c6_detect_conflicts [(c6TalkA, (9 : ℚ) / 10), (c6TalkB, 8 / 10), (c6TalkC, 7 / 10)]
    c6TalkA c6TalkB c6TalkC ((9 : ℚ) / 10) (8 / 10) (7 / 10)
    "Friday, October 17" "2:00 pm" "4:00 pm"
    rfl rfl rfl rfl rfl rfl (by decide) (by decide) (by decide) (by decide)

/-! ## Schedule ordering (`generate_schedule_markdown`)

`sorted(relevant_talks, key=lambda x: (x[0].day or "Unknown", x[0].time or
"Unknown", -x[1]))`: a stable sort by the lexicographic comparison of the key
tuples, with Python's code-point string comparison. -/

/-- Python's lexicographic `<` on strings, over character lists. -/
def charListLt : List Char → List Char → Bool
  | [], [] => false
  | [], _ :: _ => true
  | _ :: _, [] => false
  | a :: as, b :: bs => if a < b then true else if b < a then false else charListLt as bs

/-- Model of Python's `<` on strings. -/
def pyStrLt (a b : String) : Bool := charListLt a.data b.data

theorem charListLt_irrefl : ∀ a : List Char, charListLt a a = false := by
  intro a
  induction a with
  | nil => rfl
  | cons x xs ih => simp [charListLt, lt_irrefl, ih]

theorem charListLt_asymm : ∀ a b : List Char, charListLt a b = true → charListLt b a = false := by
  intro a
  induction a with
  | nil =>
    intro b h
    cases b with
    | nil => simp [charListLt] at h
    | cons y ys => rfl
  | cons x xs ih =>
    intro b h
    cases b with
    | nil => simp [charListLt] at h
    | cons y ys =>
      rw [charListLt] at h ⊢
      by_cases hxy : x < y
      · simp [hxy, lt_asymm hxy]
      · by_cases hyx : y < x
        · simp [hxy, hyx] at h
        · have hxe : x = y := le_antisymm (not_lt.mp hyx) (not_lt.mp hxy)
          subst hxe
          simp [lt_irrefl] at h ⊢
          exact ih ys h

theorem charListLt_connex : ∀ a b : List Char,
    charListLt a b = false → charListLt b a = false → a = b := by
  intro a
  induction a with
  | nil =>
    intro b h1 _
    cases b with
    | nil => rfl
    | cons y ys => simp [charListLt] at h1
  | cons x xs ih =>
    intro b h1 h2
    cases b with
    | nil => simp [charListLt] at h2
    | cons y ys =>
      rw [charListLt] at h1 h2
      by_cases hxy : x < y
      · simp [hxy] at h1
      · by_cases hyx : y < x
        · simp [hyx, hxy] at h2
        · have hxe : x = y := le_antisymm (not_lt.mp hyx) (not_lt.mp hxy)
          subst hxe
          simp [lt_irrefl] at h1 h2
          rw [ih ys h1 h2]

theorem charListLt_trans : ∀ a b c : List Char,
    charListLt a b = true → charListLt b c = true → charListLt a c = true := by
  intro a
  induction a with
  | nil =>
    intro b c h1 h2
    cases b with
    | nil => simp [charListLt] at h1
    | cons y ys =>
      cases c with
      | nil => simp [charListLt] at h2
      | cons z zs => simp [charListLt]
  | cons x xs ih =>
    intro b c h1 h2
    cases b with
    | nil => simp [charListLt] at h1
    | cons y ys =>
      cases c with
      | nil => simp [charListLt] at h2
      | cons z zs =>
        rw [charListLt] at h1 h2 ⊢
        by_cases hxy : x < y
        · by_cases hyz : y < z
          · simp [lt_trans hxy hyz]
          · by_cases hzy : z < y
            · simp [hyz, hzy] at h2
            · have hye : y = z := le_antisymm (not_lt.mp hzy) (not_lt.mp hyz)
              subst hye
              simp [hxy]
        · by_cases hyx : y < x
          · simp [hxy, hyx] at h1
          · have hxe : x = y := le_antisymm (not_lt.mp hyx) (not_lt.mp hxy)
            subst hxe
            simp [lt_irrefl] at h1
            by_cases hxz : x < z
            · simp [hxz]
            · by_cases hzx : z < x
              · simp [hxz, hzx] at h2
              · have hxze : x = z := le_antisymm (not_lt.mp hzx) (not_lt.mp hxz)
                subst hxze
                simp [lt_irrefl] at h2 ⊢
                exact ih ys zs h1 h2

theorem pyStrLt_irrefl (a : String) : pyStrLt a a = false :=
  charListLt_irrefl a.data

theorem pyStrLt_asymm {a b : String} (h : pyStrLt a b = true) : pyStrLt b a = false :=
  charListLt_asymm a.data b.data h

theorem pyStrLt_connex {a b : String} (h1 : pyStrLt a b = false) (h2 : pyStrLt b a = false) :
    a = b :=
  String.ext (charListLt_connex a.data b.data h1 h2)

theorem pyStrLt_trans {a b c : String} (h1 : pyStrLt a b = true) (h2 : pyStrLt b c = true) :
    pyStrLt a c = true :=
  charListLt_trans a.data b.data c.data h1 h2

/-- Trichotomy of the Python string comparison. -/
theorem pyStrLt_trichotomy (a b : String) :
    pyStrLt a b = true ∨ (a = b ∧ pyStrLt a b = false ∧ pyStrLt b a = false)
      ∨ pyStrLt b a = true := by
  by_cases h1 : pyStrLt a b = true
  · exact Or.inl h1
  · by_cases h2 : pyStrLt b a = true
    · exact Or.inr (Or.inr h2)
    · have h1' : pyStrLt a b = false := by revert h1; cases pyStrLt a b <;> simp
      have h2' : pyStrLt b a = false := by revert h2; cases pyStrLt b a <;> simp
      exact Or.inr (Or.inl ⟨pyStrLt_connex h1' h2', h1', h2'⟩)

/-- Python's `<=` comparison of a `(str, float)` pair (the inner two key
components). -/
def pairLe (p q : String × ℚ) : Bool :=
  if pyStrLt p.1 q.1 then true
  else if pyStrLt q.1 p.1 then false
  else decide (p.2 ≤ q.2)

/-- Python's `<=` comparison of the `(day, time, -score)` key triple. -/
def tripleLe (p q : String × String × ℚ) : Bool :=
  if pyStrLt p.1 q.1 then true
  else if pyStrLt q.1 p.1 then false
  else pairLe p.2 q.2

theorem pairLe_of_lt {p q : String × ℚ} (h : pyStrLt p.1 q.1 = true) : pairLe p q = true := by
  simp [pairLe, h]

theorem pairLe_of_gt {p q : String × ℚ} (h : pyStrLt q.1 p.1 = true) : pairLe p q = false := by
  simp [pairLe, pyStrLt_asymm h, h]

theorem pairLe_of_eq {p q : String × ℚ} (h1 : pyStrLt p.1 q.1 = false)
    (h2 : pyStrLt q.1 p.1 = false) : pairLe p q = decide (p.2 ≤ q.2) := by
  simp [pairLe, h1, h2]

theorem pairLe_trans {p q r : String × ℚ} (h1 : pairLe p q = true) (h2 : pairLe q r = true) :
    pairLe p r = true := by
  rcases pyStrLt_trichotomy p.1 q.1 with hpq | ⟨epq, f1, f2⟩ | hqp
  · rcases pyStrLt_trichotomy q.1 r.1 with hqr | ⟨eqr, g1, g2⟩ | hrq
    · exact pairLe_of_lt (pyStrLt_trans hpq hqr)
    · exact pairLe_of_lt (by rw [← eqr]; exact hpq)
    · rw [pairLe_of_gt hrq] at h2
      exact absurd h2 (by simp)
  · rcases pyStrLt_trichotomy q.1 r.1 with hqr | ⟨eqr, g1, g2⟩ | hrq
    · exact pairLe_of_lt (by rw [epq]; exact hqr)
    · have e : p.1 = r.1 := epq.trans eqr
      rw [pairLe_of_eq f1 f2] at h1
      rw [pairLe_of_eq g1 g2] at h2
      rw [pairLe_of_eq (by rw [e]; exact pyStrLt_irrefl r.1) (by rw [e]; exact pyStrLt_irrefl r.1)]
      exact decide_eq_true (le_trans (of_decide_eq_true h1) (of_decide_eq_true h2))
    · rw [pairLe_of_gt hrq] at h2
      exact absurd h2 (by simp)
  · rw [pairLe_of_gt hqp] at h1
    exact absurd h1 (by simp)

theorem pairLe_total (p q : String × ℚ) : pairLe p q = true ∨ pairLe q p = true := by
  rcases pyStrLt_trichotomy p.1 q.1 with h | ⟨e, f1, f2⟩ | h
  · exact Or.inl (pairLe_of_lt h)
  · rcases le_total p.2 q.2 with h | h
    · left
      rw [pairLe_of_eq f1 f2]
      exact decide_eq_true h
    · right
      rw [pairLe_of_eq f2 f1]
      exact decide_eq_true h
  · exact Or.inr (pairLe_of_lt h)

theorem tripleLe_of_lt {p q : String × String × ℚ} (h : pyStrLt p.1 q.1 = true) :
    tripleLe p q = true := by
  simp [tripleLe, h]

theorem tripleLe_of_gt {p q : String × String × ℚ} (h : pyStrLt q.1 p.1 = true) :
    tripleLe p q = false := by
  simp [tripleLe, pyStrLt_asymm h, h]

theorem tripleLe_of_eq {p q : String × String × ℚ} (h1 : pyStrLt p.1 q.1 = false)
    (h2 : pyStrLt q.1 p.1 = false) : tripleLe p q = pairLe p.2 q.2 := by
  simp [tripleLe, h1, h2]

theorem tripleLe_trans {p q r : String × String × ℚ} (h1 : tripleLe p q = true)
    (h2 : tripleLe q r = true) : tripleLe p r = true := by
  rcases pyStrLt_trichotomy p.1 q.1 with hpq | ⟨epq, f1, f2⟩ | hqp
  · rcases pyStrLt_trichotomy q.1 r.1 with hqr | ⟨eqr, g1, g2⟩ | hrq
    · exact tripleLe_of_lt (pyStrLt_trans hpq hqr)
    · exact tripleLe_of_lt (by rw [← eqr]; exact hpq)
    · rw [tripleLe_of_gt hrq] at h2
      exact absurd h2 (by simp)
  · rcases pyStrLt_trichotomy q.1 r.1 with hqr | ⟨eqr, g1, g2⟩ | hrq
    · exact tripleLe_of_lt (by rw [epq]; exact hqr)
    · have e : p.1 = r.1 := epq.trans eqr
      rw [tripleLe_of_eq f1 f2] at h1
      rw [tripleLe_of_eq g1 g2] at h2
      rw [tripleLe_of_eq (by rw [e]; exact pyStrLt_irrefl r.1) (by rw [e]; exact pyStrLt_irrefl r.1)]
      exact pairLe_trans h1 h2
    · rw [tripleLe_of_gt hrq] at h2
      exact absurd h2 (by simp)
  · rw [tripleLe_of_gt hqp] at h1
    exact absurd h1 (by simp)

theorem tripleLe_total (p q : String × String × ℚ) : tripleLe p q = true ∨ tripleLe q p = true := by
  rcases pyStrLt_trichotomy p.1 q.1 with h | ⟨e, f1, f2⟩ | h
  · exact Or.inl (tripleLe_of_lt h)
  · rcases pairLe_total p.2 q.2 with h | h
    · left
      rw [tripleLe_of_eq f1 f2]
      exact h
    · right
      rw [tripleLe_of_eq f2 f1]
      exact h
  · exact Or.inr (tripleLe_of_lt h)

/-- The sort key `(x[0].day or "Unknown", x[0].time or "Unknown", -x[1])`. -/
def schedule_sort_key (p : ConferenceTalk × ℚ) : String × String × ℚ :=
  (pyOrStr p.1.day "Unknown", pyOrStr p.1.time "Unknown", -p.2)

/-- The sort-order comparison of two candidates used by the schedule. -/
def schedule_key_le (x y : ConferenceTalk × ℚ) : Bool :=
  tripleLe (schedule_sort_key x) (schedule_sort_key y)

/-- Model of the `sorted(...)` call of `generate_schedule_markdown`: a stable
sort by the key comparison. -/
def sorted_schedule (talks : List (ConferenceTalk × ℚ)) : List (ConferenceTalk × ℚ) :=
  List.insertionSort (fun x y => schedule_key_le x y = true) talks

/-! ## Claim C7: the final schedule order -/

/-- A scheduled candidate on a Wednesday. -/
def c7Scheduled : ConferenceTalk :=
  ConferenceTalk.create "Variant effect prediction" "A talk on predicting the effect of rare variants."
    ["A Author"] "talk" (some "Wednesday, October 15") (some "2:00 pm") none none none

/-- A candidate with no day and no time. -/
def c7Unscheduled : ConferenceTalk :=
  ConferenceTalk.create "Ancestry inference" "A poster on inference of ancestry from array data."
    ["B Author"] "poster" none none none none none

/-- Claim C7 is false as stated: the `"Unknown"` key of an unscheduled
candidate is compared as an ordinary string, so it sorts BEFORE a scheduled
candidate whose day string is lexicographically greater (here
`"Unknown" < "Wednesday, October 15"`), not after it. -/
theorem c7_counterexample :
    pyTruthy c7Scheduled.day = true ∧ c7Unscheduled.day = none ∧
    sorted_schedule [(c7Scheduled, 1), (c7Unscheduled, 0)] =
      [(c7Unscheduled, 0), (c7Scheduled, 1)] := by
  decide

/-- Claim C7 amended: the schedule is a permutation of the candidates sorted
by the key `(day or "Unknown", time or "Unknown", -similarity)` under Python's
string comparison — in particular, within a fixed `(day, time)` the candidate
with the highest similarity comes first; candidates lacking a day or time are
keyed `"Unknown"`, which sorts in ordinary string order among the day/time
strings (not necessarily after all scheduled candidates). -/
theorem c7_amended (talks : List (ConferenceTalk × ℚ)) :
    (sorted_schedule talks).Perm talks ∧
    (sorted_schedule talks).Pairwise (fun x y => schedule_key_le x y = true) ∧
    (sorted_schedule talks).Pairwise (fun x y =>
      pyOrStr x.1.day "Unknown" = pyOrStr y.1.day "Unknown" →
      pyOrStr x.1.time "Unknown" = pyOrStr y.1.time "Unknown" →
      y.2 ≤ x.2) := by
  haveI hto : IsTotal (ConferenceTalk × ℚ) (fun x y => schedule_key_le x y = true) :=
    ⟨fun a b => tripleLe_total _ _⟩
  haveI htr : IsTrans (ConferenceTalk × ℚ) (fun x y => schedule_key_le x y = true) :=
    ⟨fun a b c h1 h2 => tripleLe_trans h1 h2⟩
  have hs := List.sorted_insertionSort (fun x y => schedule_key_le x y = true) talks
  refine ⟨List.perm_insertionSort _ talks, hs, ?_⟩
  refine hs.imp ?_
  intro x y hxy hd ht
  unfold schedule_key_le schedule_sort_key at hxy
  rw [hd, ht] at hxy
  simp only [tripleLe, pairLe, pyStrLt_irrefl, if_false, Bool.false_eq_true] at hxy
  rw [decide_eq_true_eq] at hxy
  exact neg_le_neg_iff.mp hxy
